import Mathlib

/-!
Verification of the inference module of subgraph-sketching
(src/runners/inference.py).  The module dispatches one of three inference
functions per model type and data split, iterates batches through a model,
concatenates per-batch logits and labels, and hands the resulting tensors
to external metric functions.  Tensors are modelled as lists of rationals
(one-dimensional after the view(-1) flattening the code performs), Python
numbers that may be math.inf as the type PyFloat, fallible operations as
Except String, and external collaborators (model forwards, evaluators) as
function parameters.
-/

/-- One-dimensional tensors are modelled as lists of rationals. -/
abbrev Tensor := List ℚ

/-- A Python number that is either a finite value or math.inf; used for
sampling arguments and sample caps. -/
inductive PyFloat where
  | fin (q : ℚ)
  | inf
deriving DecidableEq

/-- Python comparison x <= y on PyFloat values. -/
def PyFloat.le : PyFloat → PyFloat → Bool
  | .fin a, .fin b => decide (a ≤ b)
  | .fin _, .inf => true
  | .inf, .fin _ => false
  | .inf, .inf => true

/-- Python comparison x < y on PyFloat values. -/
def PyFloat.lt : PyFloat → PyFloat → Bool
  | .fin a, .fin b => decide (a < b)
  | .fin _, .inf => true
  | .inf, _ => false

/-- The fields of the argparse namespace that inference.py reads. -/
structure Args where
  model : String
  dataset_name : String
  bulk_train : Bool
  bulk_val : Bool
  bulk_test : Bool
  dynamic_train : Bool
  dynamic_val : Bool
  dynamic_test : Bool
  train_samples : ℚ
  val_samples : ℚ
  test_samples : ℚ
  batch_size : ℕ
  eval_batch_size : ℕ
  K : ℕ
  wandb : Bool
  use_feature : Bool
  use_edge_weight : Bool
  use_struct_feature : Bool
  use_RA : Bool
  propagate_embeddings : Bool
deriving DecidableEq

/-- The three inference functions that get_test_func can return. -/
inductive TestFunc where
  | get_preds
  | get_bulk_preds
  | get_gnn_preds
deriving DecidableEq

/-- Translation of get_test_func (inference.py lines 15-26): ELPH models
always use get_gnn_preds; otherwise the split name selects between
get_bulk_preds and get_preds via the corresponding bulk flag, and an
unknown split name raises NotImplementedError. -/
def get_test_func (args : Args) (split : String) : Except String TestFunc :=
  if args.model = "ELPH" then
    .ok .get_gnn_preds
  else if split = "train" then
    .ok (if args.bulk_train then .get_bulk_preds else .get_preds)
  else if split = "val" ∨ split = "valid" then
    .ok (if args.bulk_val then .get_bulk_preds else .get_preds)
  else if split = "test" then
    .ok (if args.bulk_test then .get_bulk_preds else .get_preds)
  else
    .error ("no " ++ split ++ " split implemented")

/-- Translation of get_sample_arg (inference.py lines 157-174): returns the
per-split sample count when the dynamic flag of the split is set, math.inf
otherwise, and raises NotImplementedError on unknown split names. -/
def get_sample_arg (split : String) (args : Args) : Except String PyFloat :=
  if split = "train" then
    .ok (if args.dynamic_train then .fin args.train_samples else .inf)
  else if split = "val" ∨ split = "valid" then
    .ok (if args.dynamic_val then .fin args.val_samples else .inf)
  else if split = "test" then
    .ok (if args.dynamic_test then .fin args.test_samples else .inf)
  else
    .error ("split: " ++ split ++ " is not a valid split")

/-- A concrete non-ELPH argument record used by witnesses. -/
def argsGCN : Args :=
  { model := "GCN", dataset_name := "Cora", bulk_train := true,
    bulk_val := false, bulk_test := false, dynamic_train := true,
    dynamic_val := false, dynamic_test := false, train_samples := 2,
    val_samples := 1, test_samples := 3, batch_size := 1,
    eval_batch_size := 1, K := 10, wandb := false, use_feature := true,
    use_edge_weight := false, use_struct_feature := true, use_RA := false,
    propagate_embeddings := false }

/-- A concrete ELPH argument record used by witnesses. -/
def argsELPH : Args := { argsGCN with model := "ELPH" }

/-- torch.cat on a list of tensors: torch raises on an empty list and
otherwise concatenates in order. -/
def torch_cat (ts : List Tensor) : Except String Tensor :=
  if ts = [] then
    .error "RuntimeError: expected a non-empty list of Tensors"
  else .ok ts.flatten

/-- The entries of pred at the positions where the mask value is v. -/
def maskKeep (pred mask : Tensor) (v : ℚ) : Tensor :=
  (pred.zip mask).filterMap fun pm =>
    if pm.2 = v then some pm.1 else Option.none

/-- Boolean mask selection pred[mask == v]: torch requires the mask to
have the shape of pred, then keeps the entries whose mask value is v. -/
def mask_select (pred mask : Tensor) (v : ℚ) : Except String Tensor :=
  if pred.length = mask.length then
    .ok (maskKeep pred mask v)
  else .error "IndexError: mask shape mismatch"

/-- The sample cap computed at the top of get_preds (lines 69-72):
len(loader.dataset) * sample_arg when sample_arg <= 1, sample_arg
otherwise. -/
def samplesCap (sample_arg : PyFloat) (dataset_len : ℕ) : PyFloat :=
  if sample_arg.le (.fin 1) then
    match sample_arg with
    | .fin q => .fin ((dataset_len : ℚ) * q)
    | .inf => .inf
  else sample_arg

/-- The value bound to the emb parameter of get_preds: Python None or a
number (the function test passes sample counts positionally into this
slot). -/
inductive EmbArg where
  | none
  | num (v : PyFloat)
deriving DecidableEq

/-- Python truthiness of an emb value: None and the number 0 are falsy,
every other number including math.inf is truthy. -/
def EmbArg.truthy : EmbArg → Bool
  | .none => false
  | .num (.fin q) => decide (q ≠ 0)
  | .num .inf => true

/-- The attributes of a PyG Data batch that get_preds reads. -/
structure PygData where
  z : Tensor
  edge_index : Tensor
  batch : Tensor
  x : Tensor
  edge_weight : Tensor
  node_id : Tensor
  src_degree : Tensor
  dst_degree : Tensor
  y : Tensor
deriving DecidableEq

/-- The positional arguments handed to the model forward in the
non-hashing branch of get_preds (lines 87-91). -/
structure ModelInput where
  z : Tensor
  edge_index : Tensor
  batch : Tensor
  x : Option Tensor
  edge_weight : Option Tensor
  node_id : Option Tensor
  src_degree : Tensor
  dst_degree : Tensor
deriving DecidableEq

/-- Assembly of the model inputs in get_preds lines 87-91: x and
edge_weight are gated by their flags, node_id by the truthiness of emb. -/
def mkModelInput (args : Args) (emb : EmbArg) (d : PygData) : ModelInput :=
  { z := d.z, edge_index := d.edge_index, batch := d.batch,
    x := if args.use_feature then some d.x else Option.none,
    edge_weight :=
      if args.use_edge_weight then some d.edge_weight else Option.none,
    node_id := if emb.truthy then some d.node_id else Option.none,
    src_degree := d.src_degree, dst_degree := d.dst_degree }

/-- One batch yielded by the loader in get_preds: a list of tensors whose
last entry is the labels for the hashing model, a PyG Data object for the
other models. -/
inductive BatchData where
  | hash (elems : List Tensor)
  | pyg (d : PygData)
deriving DecidableEq

/-- The body of the batch loop of get_preds (lines 81-93): produces the
flattened logits and the flattened float labels of one batch; the label
cast to float is the identity on rational tensors. -/
def processBatch (modelFn : ModelInput → Tensor)
    (hashFn : List Tensor → Tensor) (args : Args) (emb : EmbArg) :
    BatchData → Except String (Tensor × Tensor)
  | .hash elems =>
      if args.model = "hashing" then
        match elems.getLast? with
        | some last => .ok (hashFn elems.dropLast, last)
        | Option.none => .error "IndexError: list index out of range"
      else .error "AttributeError: batch is a list, not a Data object"
  | .pyg d =>
      if args.model = "hashing" then
        .error "TypeError: Data object is not a sequence of tensors"
      else .ok (modelFn (mkModelInput args emb d), d.y)

/-- The batch loop of get_preds (lines 79-100): batches are processed in
order, one logits tensor and one label tensor appended per batch, and
the loop breaks after the first batch whose count satisfies
(batch_count + 1) * batch_size > samples. -/
def get_preds_loop (pb : BatchData → Except String (Tensor × Tensor))
    (batch_size : ℕ) (samples : PyFloat) :
    ℕ → List BatchData → Except String (List Tensor × List Tensor)
  | _, [] => .ok ([], [])
  | bc, d :: rest => do
      let r ← pb d
      if samples.lt (.fin (((bc + 1) * batch_size : ℕ) : ℚ)) then
        .ok ([r.1], [r.2])
      else do
        let rs ← get_preds_loop pb batch_size samples (bc + 1) rest
        .ok (r.1 :: rs.1, r.2 :: rs.2)

/-- The dataset object read by get_bulk_preds and get_gnn_preds: edges
(links) with their labels, per-link structure features and RA scores,
per-node features and degrees, and the graph edge index. -/
structure BulkDataset where
  links : List (ℕ × ℕ)
  labels : List ℚ
  structure_features : List Tensor
  RA : List ℚ
  x : List Tensor
  degrees : List ℚ
  edge_index : Tensor
deriving DecidableEq

/-- A data loader: the batches it yields when iterated (the get_preds
path), the length of its dataset, and the dataset attributes read by the
bulk and GNN paths. -/
structure Loader where
  batches : List BatchData
  datasetLen : ℕ
  dataset : BulkDataset
deriving DecidableEq

/-- Device movement does not change tensor values, so a device is a
placeholder. -/
abbrev Device := Unit

/-- The quadruple (pos_pred, neg_pred, pred, true) returned by each
inference function; the Python name true is rendered truth. -/
structure PredResult where
  pos_pred : Tensor
  neg_pred : Tensor
  pred : Tensor
  truth : Tensor
deriving DecidableEq

/-- Translation of get_preds (lines 65-110).  The sample cap comes from
get_sample_arg and samplesCap; the batch loop is get_preds_loop; the
wandb branch after the loop references np.mean although numpy is never
imported, hence a NameError; otherwise the per-batch logits and labels
are concatenated in batch order and split by label value into positives
and negatives.  The sample_size parameter is unused by the code apart
from a print statement. -/
def get_preds (modelFn : ModelInput → Tensor)
    (hashFn : List Tensor → Tensor) (loader : Loader) (device : Device)
    (args : Args) (emb : EmbArg := .none) (sample_size : PyFloat := .inf)
    (split : String := "") : Except String PredResult := do
  let sample_arg ← get_sample_arg split args
  let samples := samplesCap sample_arg loader.datasetLen
  let yp ← get_preds_loop (processBatch modelFn hashFn args emb)
      args.batch_size samples 0 loader.batches
  if args.wandb then
    .error "NameError: name np is not defined"
  else do
    let pred ← torch_cat yp.1
    let truth ← torch_cat yp.2
    let pos_pred ← mask_select pred truth 1
    let neg_pred ← mask_select pred truth 0
    .ok { pos_pred := pos_pred, neg_pred := neg_pred,
          pred := pred, truth := truth }

/-- Indexing a tensor by an index tensor, l[indices]: torch raises on an
out-of-range index. -/
def selectIdx {α : Type} (l : List α) : List ℕ → Except String (List α)
  | [] => .ok []
  | i :: is =>
      match l[i]? with
      | some v => do
          let rest ← selectIdx l is
          .ok (v :: rest)
      | Option.none => .error "IndexError: index out of range"

/-- Indexing a per-node tensor by a tensor of node pairs, l[curr_links]:
one row pair per link. -/
def selectPairs {α : Type} (l : List α) :
    List (ℕ × ℕ) → Except String (List (α × α))
  | [] => .ok []
  | p :: rest =>
      match l[p.1]?, l[p.2]? with
      | some a, some b => do
          let r ← selectPairs l rest
          .ok ((a, b) :: r)
      | _, _ => .error "IndexError: index out of range"

/-- Fuel-indexed chunking; the fuel only bounds the recursion depth and
any fuel at least the list length gives the chunking. -/
def chunkListF {α : Type} (B : ℕ) : ℕ → List α → List (List α)
  | _, [] => []
  | 0, _ :: _ => []
  | fuel + 1, a :: rest =>
      (a :: rest.take (B - 1)) :: chunkListF B fuel (rest.drop (B - 1))

/-- Consecutive chunks of size B, the last possibly smaller; this is what
DataLoader yields on a list with shuffle False and batch size B. -/
def chunkList {α : Type} (B : ℕ) (l : List α) : List (List α) :=
  chunkListF B l.length l

/-- The index batches of get_bulk_preds and get_gnn_preds, built by
DataLoader(range(len(links)), eval_batch_size, shuffle=False). -/
def indexBatches (numLinks B : ℕ) : List (List ℕ) :=
  chunkList B (List.range numLinks)

/-- The positional arguments of the bulk model forward (line 143). -/
structure BulkModelInput where
  structure_features : List Tensor
  node_features : List (Tensor × Tensor)
  src_degree : List ℚ
  dst_degree : List ℚ
  RA : Option (List ℚ)
  batch_emb : Option (List (Tensor × Tensor))

/-- The pieces of the model object that get_bulk_preds reads: the
optional node embedding table, the embedding propagation function and
the forward function. -/
structure BulkModel where
  node_embedding : Option (List Tensor)
  propagate_embeddings_func : Tensor → List Tensor
  forward : BulkModelInput → Tensor

/-- The node embedding table selected at the top of get_bulk_preds and
get_gnn_preds (lines 123-129 and 188-194). -/
def embTable (node_embedding : Option (List Tensor))
    (propagate : Tensor → List Tensor) (args : Args) (data : BulkDataset) :
    Option (List Tensor) :=
  match node_embedding with
  | some w =>
      some (if args.propagate_embeddings then propagate data.edge_index else w)
  | Option.none => Option.none

/-- The per-link embedding rows emb[curr_links] of line 132; None stays
None. -/
def batchEmbRows (emb : Option (List Tensor)) (curr_links : List (ℕ × ℕ)) :
    Except String (Option (List (Tensor × Tensor))) :=
  match emb with
  | Option.none => .ok Option.none
  | some w => do
      let e ← selectPairs w curr_links
      pure (some e)

/-- The RA scores of lines 139-142: data.RA[indices] when use_RA is set,
None otherwise. -/
def raRows (args : Args) (data : BulkDataset) (indices : List ℕ) :
    Except String (Option (List ℚ)) :=
  if args.use_RA then do
    let r ← selectIdx data.RA indices
    pure (some r)
  else .ok Option.none

/-- The body of the batch loop of get_bulk_preds (lines 131-143):
hydrates the links of one index batch and assembles the model inputs;
with use_struct_feature unset the structure features are zeros of the
indexed shape. -/
def bulk_batch (model : BulkModel) (args : Args) (data : BulkDataset)
    (emb : Option (List Tensor)) (indices : List ℕ) :
    Except String Tensor := do
  let curr_links ← selectIdx data.links indices
  let batch_emb ← batchEmbRows emb curr_links
  let sf ← selectIdx data.structure_features indices
  let structure_features :=
    if args.use_struct_feature then sf
    else sf.map fun t => t.map fun _ => (0 : ℚ)
  let node_features ← selectPairs data.x curr_links
  let degrees ← selectPairs data.degrees curr_links
  let RA ← raRows args data indices
  .ok (model.forward
    { structure_features := structure_features,
      node_features := node_features,
      src_degree := degrees.map Prod.fst,
      dst_degree := degrees.map Prod.snd,
      RA := RA, batch_emb := batch_emb })

/-- The batch loop of get_bulk_preds (lines 130-146): one logits tensor
appended per index batch, breaking after the first batch whose count
satisfies (batch_count + 1) * eval_batch_size > sample_size. -/
def bulk_loop (model : BulkModel) (args : Args) (data : BulkDataset)
    (emb : Option (List Tensor)) (sample_size : PyFloat) :
    ℕ → List (List ℕ) → Except String (List Tensor)
  | _, [] => .ok []
  | bc, idxs :: rest => do
      let lg ← bulk_batch model args data emb idxs
      if sample_size.lt (.fin (((bc + 1) * args.eval_batch_size : ℕ) : ℚ)) then
        .ok [lg]
      else do
        let r ← bulk_loop model args data emb sample_size (bc + 1) rest
        .ok (lg :: r)

/-- The shared tail of get_bulk_preds and get_gnn_preds (lines 150-154
and 209-213): concatenate the per-batch logits, truncate the dataset
labels to the length of pred, and split pred by label value. -/
def finishPreds (preds : List Tensor) (labels : List ℚ) :
    Except String PredResult := do
  let pred ← torch_cat preds
  let labels2 := labels.take pred.length
  let pos_pred ← mask_select pred labels2 1
  let neg_pred ← mask_select pred labels2 0
  .ok { pos_pred := pos_pred, neg_pred := neg_pred,
        pred := pred, truth := labels2 }

/-- Translation of get_bulk_preds (lines 113-154); the wandb branch there
only logs timings and cannot fail. -/
def get_bulk_preds (model : BulkModel) (loader : Loader) (device : Device)
    (args : Args) (sample_size : PyFloat := .inf) (split : String := "") :
    Except String PredResult := do
  let data := loader.dataset
  let labels := data.labels
  if args.eval_batch_size = 0 then
    .error "ValueError: batch_size should be a positive integer value"
  else do
    let idxBatches := indexBatches data.links.length args.eval_batch_size
    let emb := embTable model.node_embedding model.propagate_embeddings_func
      args data
    let preds ← bulk_loop model args data emb sample_size 0 idxBatches
    finishPreds preds labels

/-- The pieces of the ELPH model object that get_gnn_preds reads; H and C
are the types of the hash and cardinality structures returned by the
full-graph forward pass. -/
structure GnnModel (H C : Type) where
  node_embedding : Option (List Tensor)
  propagate_embeddings_func : Tensor → List Tensor
  forward : List Tensor → Tensor → Option (List Tensor) × H × C × Tensor
  elph_hashes_get_subgraph_features : List (ℕ × ℕ) → H → C → List Tensor
  predictor : List Tensor → Option (List (Tensor × Tensor)) →
      Option (List (Tensor × Tensor)) → Tensor

/-- The structure features of lines 199-202: from the subgraph hashes
when use_struct_feature is set, otherwise zeros of the indexed dataset
shape. -/
def gnnStructFeatures {H C : Type} (model : GnnModel H C) (args : Args)
    (data : BulkDataset) (hashes : H) (cards : C)
    (curr_links : List (ℕ × ℕ)) (indices : List ℕ) :
    Except String (List Tensor) :=
  if args.use_struct_feature then
    .ok (model.elph_hashes_get_subgraph_features curr_links hashes cards)
  else do
    let sf ← selectIdx data.structure_features indices
    pure (sf.map fun t => t.map fun _ => (0 : ℚ))

/-- The per-link node feature rows of line 203; None stays None. -/
def batchNodeFeatureRows (node_features : Option (List Tensor))
    (curr_links : List (ℕ × ℕ)) :
    Except String (Option (List (Tensor × Tensor))) :=
  match node_features with
  | Option.none => .ok Option.none
  | some nf => do
      let b ← selectPairs nf curr_links
      pure (some b)

/-- The body of the batch loop of get_gnn_preds (lines 197-204): with
use_struct_feature set the structure features come from the subgraph
hashes, otherwise they are zeros of the indexed dataset shape. -/
def gnn_batch {H C : Type} (model : GnnModel H C) (args : Args)
    (data : BulkDataset) (emb : Option (List Tensor))
    (node_features : Option (List Tensor)) (hashes : H) (cards : C)
    (indices : List ℕ) : Except String Tensor := do
  let curr_links ← selectIdx data.links indices
  let batch_emb ← batchEmbRows emb curr_links
  let structure_features ←
    gnnStructFeatures model args data hashes cards curr_links indices
  let batch_node_features ← batchNodeFeatureRows node_features curr_links
  .ok (model.predictor structure_features batch_node_features batch_emb)

/-- The batch loop of get_gnn_preds (lines 196-205) has no sample cap:
every index batch is processed in order. -/
def gnn_loop (gb : List ℕ → Except String Tensor) :
    List (List ℕ) → Except String (List Tensor)
  | [] => .ok []
  | idxs :: rest => do
      let lg ← gb idxs
      let r ← gnn_loop gb rest
      .ok (lg :: r)

/-- Translation of get_gnn_preds (lines 177-213): one full-graph forward
pass yields node features, hashes and cardinalities, then the predictor
runs per index batch with no sampling cap. -/
def get_gnn_preds {H C : Type} (model : GnnModel H C) (loader : Loader)
    (device : Device) (args : Args) (sample_size : PyFloat := .inf)
    (split : String := "") : Except String PredResult := do
  let data := loader.dataset
  let labels := data.labels
  if args.eval_batch_size = 0 then
    .error "ValueError: batch_size should be a positive integer value"
  else do
    let idxBatches := indexBatches data.links.length args.eval_batch_size
    let emb := embTable model.node_embedding model.propagate_embeddings_func
      args data
    let fw := model.forward data.x data.edge_index
    let preds ← gnn_loop
      (gnn_batch model args data emb fw.1 fw.2.1 fw.2.2.1) idxBatches
    finishPreds preds labels

/-- All the forward functions one model object may provide, covering
every dispatch target of test. -/
structure ModelBundle (H C : Type) where
  pygForward : ModelInput → Tensor
  hashForward : List Tensor → Tensor
  bulk : BulkModel
  gnn : GnnModel H C

/-- A call test_func(model, loader, device, args, arg5, split=split) as
test performs it, with the fifth positional argument optionally absent:
Python positional binding sends arg5 to the emb parameter of get_preds
but to the sample_size parameter of get_bulk_preds and get_gnn_preds. -/
def callTestFunc {H C : Type} (tf : TestFunc) (M : ModelBundle H C)
    (loader : Loader) (device : Device) (args : Args)
    (arg5 : Option PyFloat) (split : String) : Except String PredResult :=
  match tf with
  | .get_preds =>
      get_preds M.pygForward M.hashForward loader device args
        (match arg5 with
         | Option.none => EmbArg.none
         | some v => EmbArg.num v)
        .inf split
  | .get_bulk_preds =>
      get_bulk_preds M.bulk loader device args (arg5.getD .inf) split
  | .get_gnn_preds =>
      get_gnn_preds M.gnn loader device args (arg5.getD .inf) split

/-- The train_eval_samples value computed in test lines 36-39. -/
def trainEvalSamples (args : Args) (val_loader : Loader) : PyFloat :=
  if args.dataset_name ≠ "ogbl-citation2" then
    .fin (val_loader.datasetLen : ℚ)
  else .inf

/-- Translation of test (lines 29-62), with the external metric functions
evaluate_hits, evaluate_mrr and evaluate_auc and the evaluator object as
parameters.  When eval_metric matches no branch, the local variable
results is unbound at the return statement, a NameError. -/
def test {H C E R : Type} (M : ModelBundle H C) (evaluator : E)
    (train_loader val_loader test_loader : Loader) (args : Args)
    (device : Device)
    (evaluate_hits : E → Tensor → Tensor → Tensor → Tensor → Tensor →
      Tensor → List ℕ → R)
    (evaluate_mrr : E → Tensor → Tensor → Tensor → Tensor → Tensor →
      Tensor → R)
    (evaluate_auc : Tensor → Tensor → Tensor → Tensor → R)
    (emb : EmbArg := .none) (eval_metric : String := "hits") :
    Except String R := do
  let train_pred_func ← get_test_func args "train"
  let train_eval_samples := trainEvalSamples args val_loader
  let tr ← callTestFunc train_pred_func M train_loader device args
      (some train_eval_samples) "train"
  let val_pred_func ← get_test_func args "val"
  let va ← callTestFunc val_pred_func M val_loader device args
      Option.none "val"
  let test_pred_func ← get_test_func args "test"
  let te ← callTestFunc test_pred_func M test_loader device args
      (some (.fin args.test_samples)) "test"
  if eval_metric = "hits" then
    .ok (evaluate_hits evaluator tr.pos_pred tr.neg_pred va.pos_pred
      va.neg_pred te.pos_pred te.neg_pred [args.K])
  else if eval_metric = "mrr" then
    .ok (evaluate_mrr evaluator tr.pos_pred tr.neg_pred va.pos_pred
      va.neg_pred te.pos_pred te.neg_pred)
  else if eval_metric = "auc" then
    .ok (evaluate_auc va.pred va.truth te.pred te.truth)
  else .error "NameError: name results is not defined"

/-- A concrete argument record with wandb logging switched on. -/
def argsGCNW : Args := { argsGCN with wandb := true }

/-- A concrete PyG batch used by witnesses. -/
def pyg0 : PygData :=
  { z := [0], edge_index := [0], batch := [0], x := [0], edge_weight := [0],
    node_id := [0], src_degree := [0], dst_degree := [0], y := [1] }

/-- A concrete bulk dataset with one positive link on one node. -/
def dataset0 : BulkDataset :=
  { links := [(0, 0)], labels := [1], structure_features := [[0]],
    RA := [0], x := [[0]], degrees := [0], edge_index := [] }

/-- A concrete loader holding one PyG batch over dataset0. -/
def loaderP : Loader :=
  { batches := [.pyg pyg0], datasetLen := 4, dataset := dataset0 }

/-- A concrete loader yielding no batches. -/
def loaderE : Loader :=
  { batches := [], datasetLen := 0, dataset := dataset0 }

/-- A concrete model forward returning the logit 5 on every batch. -/
def modelFn0 : ModelInput → Tensor := fun _ => [5]

/-- A concrete hashing model forward. -/
def hashFn0 : List Tensor → Tensor := fun _ => []

/-- A concrete bulk model producing one zero logit per link. -/
def bulkModel0 : BulkModel :=
  { node_embedding := Option.none, propagate_embeddings_func := fun _ => [],
    forward := fun inp => inp.src_degree.map fun _ => 0 }

/-- A concrete ELPH model producing one logit per structure feature
row. -/
def gnnModel0 : GnnModel Unit Unit :=
  { node_embedding := Option.none, propagate_embeddings_func := fun _ => [],
    forward := fun _ _ => (Option.none, (), (), []),
    elph_hashes_get_subgraph_features := fun cl _ _ => cl.map fun _ => [1],
    predictor := fun sf _ _ => sf.map fun _ => 1 }

/-- A concrete model bundle combining the concrete forwards. -/
def bundle0 : ModelBundle Unit Unit :=
  { pygForward := modelFn0, hashForward := hashFn0, bulk := bulkModel0,
    gnn := gnnModel0 }

/-- C1: for every args whose model is not ELPH, get_test_func returns
get_bulk_preds when the bulk flag of the split is set and get_preds
otherwise, with val and valid treated identically. -/
theorem claim_C1_dispatch_non_elph (args : Args) (h : args.model ≠ "ELPH") :
    get_test_func args "train"
      = .ok (if args.bulk_train then .get_bulk_preds else .get_preds) ∧
    get_test_func args "val"
      = .ok (if args.bulk_val then .get_bulk_preds else .get_preds) ∧
    get_test_func args "valid"
      = .ok (if args.bulk_val then .get_bulk_preds else .get_preds) ∧
    get_test_func args "test"
      = .ok (if args.bulk_test then .get_bulk_preds else .get_preds) ∧
    get_test_func args "val" = get_test_func args "valid" := by
  refine ⟨?_, ?_, ?_, ?_, ?_⟩ <;>
    (unfold get_test_func; simp only [if_neg h]) <;> rfl

/-- Witness for C1 at a concrete non-ELPH argument record with
bulk_train set. -/
theorem claim_C1_dispatch_non_elph_witness :
    get_test_func argsGCN "train" = .ok TestFunc.get_bulk_preds ∧
    get_test_func argsGCN "val" = get_test_func argsGCN "valid" :=
  ⟨(claim_C1_dispatch_non_elph argsGCN (by decide)).1,
   (claim_C1_dispatch_non_elph argsGCN (by decide)).2.2.2.2⟩

/-- C2: when args.model is ELPH, get_test_func returns get_gnn_preds for
every split string, whatever the bulk flags are. -/
theorem claim_C2_elph_dispatch (args : Args) (split : String)
    (h : args.model = "ELPH") :
    get_test_func args split = .ok .get_gnn_preds := by
  unfold get_test_func; rw [if_pos h]

/-- Witness for C2 at a concrete ELPH argument record and an arbitrary
split string. -/
theorem claim_C2_elph_dispatch_witness :
    get_test_func argsELPH "anything" = .ok TestFunc.get_gnn_preds :=
  claim_C2_elph_dispatch argsELPH "anything" rfl

/-- C3 counterexample: with model ELPH, get_test_func does not raise on the
unknown split name foo; it returns get_gnn_preds, so the claim that the
error is raised for every args is false. -/
theorem claim_C3_counterexample :
    get_test_func argsELPH "foo" = .ok TestFunc.get_gnn_preds ∧
    ∀ msg, get_test_func argsELPH "foo" ≠ .error msg :=
  ⟨rfl, fun _ h => Except.noConfusion h⟩

/-- C3 amended: on split names outside train, val, valid and test,
get_sample_arg raises for every args; get_test_func raises only when the
model is not ELPH, and with model ELPH returns get_gnn_preds instead. -/
theorem claim_C3_unknown_split (args : Args) (split : String)
    (h1 : split ≠ "train") (h2 : split ≠ "val") (h3 : split ≠ "valid")
    (h4 : split ≠ "test") :
    get_sample_arg split args
      = .error ("split: " ++ split ++ " is not a valid split") ∧
    (args.model ≠ "ELPH" →
      get_test_func args split
        = .error ("no " ++ split ++ " split implemented")) ∧
    (args.model = "ELPH" →
      get_test_func args split = .ok .get_gnn_preds) := by
  have hvv : ¬(split = "val" ∨ split = "valid") := by
    intro hc; rcases hc with hc | hc <;> [exact h2 hc; exact h3 hc]
  refine ⟨?_, ?_, ?_⟩
  · unfold get_sample_arg
    rw [if_neg h1, if_neg hvv, if_neg h4]
  · intro hm
    unfold get_test_func
    rw [if_neg hm, if_neg h1, if_neg hvv, if_neg h4]
  · intro hm
    unfold get_test_func
    rw [if_pos hm]

/-- Witness for the amended C3 at the concrete split name foo. -/
theorem claim_C3_unknown_split_witness :
    get_sample_arg "foo" argsGCN
      = .error "split: foo is not a valid split" ∧
    get_test_func argsGCN "foo" = .error "no foo split implemented" :=
  ⟨(claim_C3_unknown_split argsGCN "foo" (by decide) (by decide)
      (by decide) (by decide)).1,
   (claim_C3_unknown_split argsGCN "foo" (by decide) (by decide)
      (by decide) (by decide)).2.1 (by decide)⟩

/-- Pure in the Except monad is the ok constructor. -/
theorem pure_eq_ok {α : Type} (a : α) : (pure a : Except String α) = .ok a :=
  rfl

/-- Bind on a successful Except value applies the continuation. -/
theorem ok_bind {α β : Type} (a : α) (f : α → Except String β) :
    ((Except.ok a : Except String α) >>= f) = f a := rfl

/-- A successful bind factors through a successful first component. -/
theorem bind_ok_iff {α β : Type} {e : Except String α}
    {f : α → Except String β} {b : β} :
    (e >>= f) = .ok b ↔ ∃ a, e = .ok a ∧ f a = .ok b := by
  cases e <;> simp [Bind.bind, Except.bind]

/-- Success condition of torch_cat. -/
theorem torch_cat_ok {ts : List Tensor} {r : Tensor} :
    torch_cat ts = .ok r ↔ ts ≠ [] ∧ r = ts.flatten := by
  unfold torch_cat
  by_cases h : ts = []
  · simp [h]
  · simp [h, eq_comm]

/-- Success condition of mask_select. -/
theorem mask_select_ok {pred mask : Tensor} {v : ℚ} {r : Tensor} :
    mask_select pred mask v = .ok r ↔
      pred.length = mask.length ∧ r = maskKeep pred mask v := by
  unfold mask_select
  by_cases h : pred.length = mask.length
  · simp [h, eq_comm]
  · simp [h]

/-- What a successful finishPreds guarantees about its result fields. -/
theorem finishPreds_ok {preds : List Tensor} {labels : List ℚ}
    {r : PredResult} (h : finishPreds preds labels = .ok r) :
    preds ≠ [] ∧ r.pred = preds.flatten ∧
    r.truth = labels.take r.pred.length ∧
    r.pred.length = r.truth.length ∧
    r.pos_pred = maskKeep r.pred r.truth 1 ∧
    r.neg_pred = maskKeep r.pred r.truth 0 := by
  unfold finishPreds at h
  rw [bind_ok_iff] at h
  obtain ⟨pred, hcat, h⟩ := h
  rw [torch_cat_ok] at hcat
  rw [bind_ok_iff] at h
  obtain ⟨pos, hpos, h⟩ := h
  rw [bind_ok_iff] at h
  obtain ⟨neg, hneg, h⟩ := h
  rw [mask_select_ok] at hpos hneg
  obtain ⟨hlen, hposv⟩ := hpos
  obtain ⟨_, hnegv⟩ := hneg
  obtain ⟨hne, hpredv⟩ := hcat
  cases r
  simp only [Except.ok.injEq, PredResult.mk.injEq] at h
  obtain ⟨h1, h2, h3, h4⟩ := h
  subst h1 h2 h3 h4
  refine ⟨hne, hpredv.symm ▸ rfl, ?_, ?_, ?_, ?_⟩ <;>
    simp_all [List.length_take]

/-- selectIdx preserves the number of indices. -/
theorem selectIdx_ok_length {α : Type} (l : List α) :
    ∀ (idxs : List ℕ) (res : List α),
      selectIdx l idxs = .ok res → res.length = idxs.length := by
  intro idxs
  induction idxs with
  | nil =>
      intro res h
      simp only [selectIdx, Except.ok.injEq] at h
      simp [← h]
  | cons i is ih =>
      intro res h
      simp only [selectIdx] at h
      cases hv : l[i]? with
      | none => rw [hv] at h; exact absurd h (by simp)
      | some v =>
          rw [hv] at h
          rw [bind_ok_iff] at h
          obtain ⟨rest, hrest, h⟩ := h
          simp only [Except.ok.injEq] at h
          subst h
          simp [ih rest hrest]

/-- selectPairs preserves the number of links. -/
theorem selectPairs_ok_length {α : Type} (l : List α) :
    ∀ (links : List (ℕ × ℕ)) (res : List (α × α)),
      selectPairs l links = .ok res → res.length = links.length := by
  intro links
  induction links with
  | nil =>
      intro res h
      simp only [selectPairs, Except.ok.injEq] at h
      simp [← h]
  | cons p rest ih =>
      intro res h
      simp only [selectPairs] at h
      cases ha : l[p.1]? with
      | none => rw [ha] at h; exact absurd h (by simp)
      | some a =>
          cases hb : l[p.2]? with
          | none => rw [ha, hb] at h; exact absurd h (by simp)
          | some b =>
              rw [ha, hb] at h
              rw [bind_ok_iff] at h
              obtain ⟨r, hr, h⟩ := h
              simp only [Except.ok.injEq] at h
              subst h
              simp [ih r hr]

/-- A successful mapM produces one output per input. -/
theorem mapM_ok_length {α β : Type} (f : α → Except String β) :
    ∀ (l : List α) (res : List β),
      l.mapM f = .ok res → res.length = l.length := by
  intro l
  induction l with
  | nil =>
      intro res h
      simp only [List.mapM_nil, pure_eq_ok, Except.ok.injEq] at h
      simp [← h]
  | cons a t ih =>
      intro res h
      rw [List.mapM_cons] at h
      rw [bind_ok_iff] at h
      obtain ⟨b, hb, h⟩ := h
      rw [bind_ok_iff] at h
      obtain ⟨bs, hbs, h⟩ := h
      rw [pure_eq_ok] at h
      simp only [Except.ok.injEq] at h
      subst h
      simp [ih bs hbs]

/-- When every successful output of f has length g a, a successful mapM
maps lengths to g. -/
theorem mapM_ok_map_length {α β : Type} (f : α → Except String (List β))
    (g : α → ℕ) (hf : ∀ a b, f a = .ok b → b.length = g a) :
    ∀ (l : List α) (res : List (List β)),
      l.mapM f = .ok res → res.map List.length = l.map g := by
  intro l
  induction l with
  | nil =>
      intro res h
      simp only [List.mapM_nil, pure_eq_ok, Except.ok.injEq] at h
      simp [← h]
  | cons a t ih =>
      intro res h
      rw [List.mapM_cons] at h
      rw [bind_ok_iff] at h
      obtain ⟨b, hb, h⟩ := h
      rw [bind_ok_iff] at h
      obtain ⟨bs, hbs, h⟩ := h
      rw [pure_eq_ok] at h
      simp only [Except.ok.injEq] at h
      subst h
      simp [ih bs hbs, hf a b hb]

/-- With enough fuel the chunks of a list flatten back to the list. -/
theorem chunkListF_flatten {α : Type} (B : ℕ) :
    ∀ (fuel : ℕ) (l : List α), l.length ≤ fuel →
      (chunkListF B fuel l).flatten = l := by
  intro fuel
  induction fuel with
  | zero =>
      intro l hl
      cases l with
      | nil => rfl
      | cons a rest => simp at hl
  | succ f ih =>
      intro l hl
      cases l with
      | nil => rfl
      | cons a rest =>
          rw [chunkListF]
          simp only [List.flatten_cons]
          rw [ih (rest.drop (B - 1)) (by
            simp only [List.length_drop]
            simp only [List.length_cons] at hl
            omega)]
          simp

/-- The chunks of a list flatten back to the list. -/
theorem chunkList_flatten {α : Type} (B : ℕ) (l : List α) :
    (chunkList B l).flatten = l :=
  chunkListF_flatten B l.length l (Nat.le_refl _)

/-- Flattening a prefix of chunks never exceeds the full flattening. -/
theorem flatten_take_le {α : Type} (l : List (List α)) (k : ℕ) :
    ((l.take k).flatten).length ≤ l.flatten.length := by
  conv_rhs => rw [← List.take_append_drop k l]
  rw [List.flatten_append, List.length_append]
  omega

/-- Lists with equal length images have equal flattened lengths. -/
theorem flatten_length_of_map_length {α β : Type}
    {l1 : List (List α)} {l2 : List (List β)}
    (h : l1.map List.length = l2.map List.length) :
    l1.flatten.length = l2.flatten.length := by
  rw [List.length_flatten, List.length_flatten, h]

/-- When every mask entry is 0 or 1, keeping the 1 rows and the 0 rows
partitions pred. -/
theorem maskKeep_partition (pred : Tensor) :
    ∀ (mask : Tensor), pred.length = mask.length →
      (∀ x ∈ mask, x = 0 ∨ x = 1) →
      (maskKeep pred mask 1).length + (maskKeep pred mask 0).length
        = pred.length := by
  induction pred with
  | nil => intro mask _ _; simp [maskKeep]
  | cons p pt ih =>
      intro mask hlen hm
      cases mask with
      | nil => simp at hlen
      | cons m mt =>
          have hm' : ∀ x ∈ mt, x = 0 ∨ x = 1 := fun x hx =>
            hm x (List.mem_cons_of_mem _ hx)
          have hlen' : pt.length = mt.length := by simpa using hlen
          have hrec := ih mt hlen' hm'
          rcases hm m (List.mem_cons_self _ _) with h0 | h1
          · subst h0
            simp only [maskKeep, List.zip_cons_cons, List.filterMap_cons]
              at hrec ⊢
            norm_num
            omega
          · subst h1
            simp only [maskKeep, List.zip_cons_cons, List.filterMap_cons]
              at hrec ⊢
            norm_num
            omega

/-- A successful get_preds_loop processes a prefix of the batches in
order, one logits and label pair per batch. -/
theorem get_preds_loop_ok_parts
    (pb : BatchData → Except String (Tensor × Tensor)) (B : ℕ)
    (s : PyFloat) :
    ∀ (bs : List BatchData) (n : ℕ) (ps ts : List Tensor),
      get_preds_loop pb B s n bs = .ok (ps, ts) →
      ∃ k pairs, k ≤ bs.length ∧ (bs.take k).mapM pb = .ok pairs ∧
        ps = pairs.map Prod.fst ∧ ts = pairs.map Prod.snd := by
  intro bs
  induction bs with
  | nil =>
      intro n ps ts h
      simp only [get_preds_loop, Except.ok.injEq, Prod.mk.injEq] at h
      obtain ⟨h1, h2⟩ := h
      exact ⟨0, [], Nat.zero_le _,
        by simp only [List.take_nil, List.mapM_nil, pure_eq_ok],
        by simp [← h1], by simp [← h2]⟩
  | cons d rest ih =>
      intro n ps ts h
      simp only [get_preds_loop] at h
      rw [bind_ok_iff] at h
      obtain ⟨r, hr, h⟩ := h
      by_cases hbrk : s.lt (.fin (((n + 1) * B : ℕ) : ℚ)) = true
      · rw [if_pos hbrk] at h
        simp only [Except.ok.injEq, Prod.mk.injEq] at h
        obtain ⟨h1, h2⟩ := h
        refine ⟨1, [r], by simp, ?_, by simp [← h1], by simp [← h2]⟩
        simp only [List.take_succ_cons, List.take_zero, List.mapM_cons,
          List.mapM_nil, hr, ok_bind, pure_eq_ok]
      · rw [if_neg hbrk] at h
        rw [bind_ok_iff] at h
        obtain ⟨rs, hrs, h⟩ := h
        obtain ⟨ps', ts'⟩ := rs
        simp only [Except.ok.injEq, Prod.mk.injEq] at h
        obtain ⟨h1, h2⟩ := h
        obtain ⟨k, pairs, hk, hmap, hp, ht⟩ := ih (n + 1) ps' ts' hrs
        refine ⟨k + 1, r :: pairs, by simpa using hk, ?_, ?_, ?_⟩
        · rw [List.take_succ_cons, List.mapM_cons, hr, ok_bind, hmap,
            ok_bind, pure_eq_ok]
        · simp [← h1, hp]
        · simp [← h2, ht]

/-- With an infinite sample cap the loop never breaks: every batch is
processed. -/
theorem get_preds_loop_inf_all
    (pb : BatchData → Except String (Tensor × Tensor)) (B : ℕ) :
    ∀ (bs : List BatchData) (n : ℕ) (ps ts : List Tensor),
      get_preds_loop pb B .inf n bs = .ok (ps, ts) →
      ps.length = bs.length ∧ ts.length = bs.length := by
  intro bs
  induction bs with
  | nil =>
      intro n ps ts h
      simp only [get_preds_loop, Except.ok.injEq, Prod.mk.injEq] at h
      obtain ⟨h1, h2⟩ := h
      simp [← h1, ← h2]
  | cons d rest ih =>
      intro n ps ts h
      simp only [get_preds_loop] at h
      rw [bind_ok_iff] at h
      obtain ⟨r, _, h⟩ := h
      rw [if_neg (by simp [PyFloat.lt])] at h
      rw [bind_ok_iff] at h
      obtain ⟨rs, hrs, h⟩ := h
      obtain ⟨ps', ts'⟩ := rs
      simp only [Except.ok.injEq, Prod.mk.injEq] at h
      obtain ⟨h1, h2⟩ := h
      obtain ⟨k1, k2⟩ := ih (n + 1) ps' ts' hrs
      simp [← h1, ← h2, k1, k2]

/-- Every processed batch except possibly the last one passed the break
test: its count times the batch size is at most the finite cap. -/
theorem get_preds_loop_no_break
    (pb : BatchData → Except String (Tensor × Tensor)) (B : ℕ) (q : ℚ) :
    ∀ (bs : List BatchData) (n : ℕ) (ps ts : List Tensor),
      get_preds_loop pb B (.fin q) n bs = .ok (ps, ts) →
      ∀ i, i + 1 < ps.length → (((n + i + 1) * B : ℕ) : ℚ) ≤ q := by
  intro bs
  induction bs with
  | nil =>
      intro n ps ts h
      simp only [get_preds_loop, Except.ok.injEq, Prod.mk.injEq] at h
      obtain ⟨h1, _⟩ := h
      intro i hi
      rw [← h1] at hi
      simp at hi
  | cons d rest ih =>
      intro n ps ts h
      simp only [get_preds_loop] at h
      rw [bind_ok_iff] at h
      obtain ⟨r, _, h⟩ := h
      by_cases hbrk : PyFloat.lt (.fin q) (.fin (((n + 1) * B : ℕ) : ℚ))
        = true
      · rw [if_pos hbrk] at h
        simp only [Except.ok.injEq, Prod.mk.injEq] at h
        obtain ⟨h1, _⟩ := h
        intro i hi
        rw [← h1] at hi
        simp at hi
      · rw [if_neg hbrk] at h
        rw [bind_ok_iff] at h
        obtain ⟨rs, hrs, h⟩ := h
        obtain ⟨ps', ts'⟩ := rs
        simp only [Except.ok.injEq, Prod.mk.injEq] at h
        obtain ⟨h1, _⟩ := h
        simp only [PyFloat.lt, decide_eq_true_eq] at hbrk
        push_neg at hbrk
        intro i hi
        cases i with
        | zero => simpa using hbrk
        | succ j =>
            have hj : j + 1 < ps'.length := by
              rw [← h1] at hi
              simpa using hi
            have := ih (n + 1) ps' ts' hrs j hj
            have harith : n + 1 + j + 1 = n + (j + 1) + 1 := by omega
            rw [harith] at this
            exact this

/-- The number of processed batches is at most
floor(samples / batch_size) + 1 when the cap is finite and the batch
size positive. -/
theorem get_preds_loop_count_le
    (pb : BatchData → Except String (Tensor × Tensor)) {B : ℕ} (q : ℚ)
    (bs : List BatchData) (ps ts : List Tensor) (hB : 0 < B)
    (h : get_preds_loop pb B (.fin q) 0 bs = .ok (ps, ts)) :
    ps.length ≤ ⌊q / (B : ℚ)⌋₊ + 1 := by
  rcases Nat.lt_or_ge ps.length 2 with hlt | hge
  · omega
  · have hnb := get_preds_loop_no_break pb B q bs 0 ps ts h
      (ps.length - 2) (by omega)
    have harith : 0 + (ps.length - 2) + 1 = ps.length - 1 := by omega
    rw [harith] at hnb
    have hcast : (((ps.length - 1) * B : ℕ) : ℚ)
        = ((ps.length - 1 : ℕ) : ℚ) * (B : ℚ) := by push_cast; ring
    rw [hcast] at hnb
    have hBQ : (0 : ℚ) < (B : ℚ) := by exact_mod_cast hB
    have hdiv : ((ps.length - 1 : ℕ) : ℚ) ≤ q / (B : ℚ) :=
      (le_div_iff₀ hBQ).mpr hnb
    have hfl : ps.length - 1 ≤ ⌊q / (B : ℚ)⌋₊ := Nat.le_floor hdiv
    omega

/-- A successful bulk_loop processes a prefix of the index batches in
order, one logits tensor per batch. -/
theorem bulk_loop_ok_parts (model : BulkModel) (args : Args)
    (data : BulkDataset) (emb : Option (List Tensor)) (s : PyFloat) :
    ∀ (bs : List (List ℕ)) (n : ℕ) (ps : List Tensor),
      bulk_loop model args data emb s n bs = .ok ps →
      ∃ k, k ≤ bs.length ∧
        (bs.take k).mapM (bulk_batch model args data emb) = .ok ps := by
  intro bs
  induction bs with
  | nil =>
      intro n ps h
      simp only [bulk_loop, Except.ok.injEq] at h
      exact ⟨0, Nat.zero_le _,
        by simp only [List.take_nil, List.mapM_nil, pure_eq_ok, h]⟩
  | cons idxs rest ih =>
      intro n ps h
      simp only [bulk_loop] at h
      rw [bind_ok_iff] at h
      obtain ⟨lg, hlg, h⟩ := h
      by_cases hbrk : s.lt (.fin (((n + 1) * args.eval_batch_size : ℕ) : ℚ))
        = true
      · rw [if_pos hbrk] at h
        simp only [Except.ok.injEq] at h
        refine ⟨1, by simp, ?_⟩
        simp only [List.take_succ_cons, List.take_zero, List.mapM_cons,
          List.mapM_nil, hlg, ok_bind, pure_eq_ok, h]
      · rw [if_neg hbrk] at h
        rw [bind_ok_iff] at h
        obtain ⟨r, hr, h⟩ := h
        simp only [Except.ok.injEq] at h
        obtain ⟨k, hk, hmap⟩ := ih (n + 1) r hr
        refine ⟨k + 1, by simpa using hk, ?_⟩
        rw [List.take_succ_cons, List.mapM_cons, hlg, ok_bind, hmap,
          ok_bind, pure_eq_ok, h]

/-- The loop of get_gnn_preds is exactly mapM over the index batches. -/
theorem gnn_loop_eq_mapM (gb : List ℕ → Except String Tensor) :
    ∀ (l : List (List ℕ)), gnn_loop gb l = l.mapM gb := by
  intro l
  induction l with
  | nil => simp only [gnn_loop, List.mapM_nil, pure_eq_ok]
  | cons idxs rest ih =>
      simp only [gnn_loop, List.mapM_cons, ih]
      cases gb idxs with
      | error e => rfl
      | ok lg =>
          simp only [ok_bind]
          cases rest.mapM gb with
          | error e => rfl
          | ok r => simp only [ok_bind, pure_eq_ok]

/-- Decomposition of a successful get_preds run into its stages. -/
theorem get_preds_ok_parts (modelFn : ModelInput → Tensor)
    (hashFn : List Tensor → Tensor) (loader : Loader) (device : Device)
    (args : Args) (emb : EmbArg) (sample_size : PyFloat) (split : String)
    (r : PredResult)
    (h : get_preds modelFn hashFn loader device args emb sample_size split
      = .ok r) :
    ∃ sa yp, get_sample_arg split args = .ok sa ∧
      get_preds_loop (processBatch modelFn hashFn args emb) args.batch_size
        (samplesCap sa loader.datasetLen) 0 loader.batches = .ok yp ∧
      args.wandb = false ∧
      yp.1 ≠ [] ∧ r.pred = yp.1.flatten ∧
      yp.2 ≠ [] ∧ r.truth = yp.2.flatten ∧
      r.pred.length = r.truth.length ∧
      r.pos_pred = maskKeep r.pred r.truth 1 ∧
      r.neg_pred = maskKeep r.pred r.truth 0 := by
  unfold get_preds at h
  rw [bind_ok_iff] at h
  obtain ⟨sa, hsa, h⟩ := h
  rw [bind_ok_iff] at h
  obtain ⟨yp, hyp, h⟩ := h
  refine ⟨sa, yp, hsa, hyp, ?_⟩
  by_cases hw : args.wandb
  · rw [if_pos hw] at h
    exact absurd h (by simp)
  · rw [if_neg hw] at h
    rw [bind_ok_iff] at h
    obtain ⟨pred, hcat, h⟩ := h
    rw [bind_ok_iff] at h
    obtain ⟨truth, hcat2, h⟩ := h
    rw [bind_ok_iff] at h
    obtain ⟨pos, hpos, h⟩ := h
    rw [bind_ok_iff] at h
    obtain ⟨neg, hneg, h⟩ := h
    rw [torch_cat_ok] at hcat hcat2
    rw [mask_select_ok] at hpos hneg
    obtain ⟨hne1, hpredv⟩ := hcat
    obtain ⟨hne2, htruthv⟩ := hcat2
    obtain ⟨hlen, hposv⟩ := hpos
    obtain ⟨_, hnegv⟩ := hneg
    cases r
    simp only [Except.ok.injEq, PredResult.mk.injEq] at h
    obtain ⟨h1, h2, h3, h4⟩ := h
    subst h1 h2 h3 h4
    refine ⟨?_, hne1, hpredv, hne2, htruthv, hlen, hposv, hnegv⟩
    simpa using hw 

/-- Decomposition of a successful get_bulk_preds run into its stages. -/
theorem get_bulk_preds_ok_parts (model : BulkModel) (loader : Loader)
    (device : Device) (args : Args) (sample_size : PyFloat) (split : String)
    (r : PredResult)
    (h : get_bulk_preds model loader device args sample_size split
      = .ok r) :
    args.eval_batch_size ≠ 0 ∧
    ∃ ps, bulk_loop model args loader.dataset
        (embTable model.node_embedding model.propagate_embeddings_func args
          loader.dataset) sample_size 0
        (indexBatches loader.dataset.links.length args.eval_batch_size)
        = .ok ps ∧
      finishPreds ps loader.dataset.labels = .ok r := by
  unfold get_bulk_preds at h
  by_cases hz : args.eval_batch_size = 0
  · rw [if_pos hz] at h
    exact absurd h (by simp)
  · rw [if_neg hz] at h
    rw [bind_ok_iff] at h
    obtain ⟨ps, hps, h⟩ := h
    exact ⟨hz, ps, hps, h⟩

/-- Decomposition of a successful get_gnn_preds run into its stages. -/
theorem get_gnn_preds_ok_parts {H C : Type} (model : GnnModel H C)
    (loader : Loader) (device : Device) (args : Args)
    (sample_size : PyFloat) (split : String) (r : PredResult)
    (h : get_gnn_preds model loader device args sample_size split
      = .ok r) :
    args.eval_batch_size ≠ 0 ∧
    ∃ ps, gnn_loop
        (gnn_batch model args loader.dataset
          (embTable model.node_embedding model.propagate_embeddings_func
            args loader.dataset)
          (model.forward loader.dataset.x loader.dataset.edge_index).1
          (model.forward loader.dataset.x loader.dataset.edge_index).2.1
          (model.forward loader.dataset.x loader.dataset.edge_index).2.2.1)
        (indexBatches loader.dataset.links.length args.eval_batch_size)
        = .ok ps ∧
      finishPreds ps loader.dataset.labels = .ok r := by
  unfold get_gnn_preds at h
  by_cases hz : args.eval_batch_size = 0
  · rw [if_pos hz] at h
    exact absurd h (by simp)
  · rw [if_neg hz] at h
    rw [bind_ok_iff] at h
    obtain ⟨ps, hps, h⟩ := h
    exact ⟨hz, ps, hps, h⟩

/-- When the bulk forward yields one logit per source degree entry, each
bulk batch yields one logit per index. -/
theorem bulk_batch_length (model : BulkModel) (args : Args)
    (data : BulkDataset) (emb : Option (List Tensor))
    (hf : ∀ inp, (model.forward inp).length = inp.src_degree.length)
    (indices : List ℕ) (lg : Tensor)
    (h : bulk_batch model args data emb indices = .ok lg) :
    lg.length = indices.length := by
  unfold bulk_batch at h
  rw [bind_ok_iff] at h
  obtain ⟨curr_links, hcl, h⟩ := h
  rw [bind_ok_iff] at h
  obtain ⟨batch_emb, _, h⟩ := h
  rw [bind_ok_iff] at h
  obtain ⟨sf, _, h⟩ := h
  rw [bind_ok_iff] at h
  obtain ⟨node_features, _, h⟩ := h
  rw [bind_ok_iff] at h
  obtain ⟨degrees, hdeg, h⟩ := h
  rw [bind_ok_iff] at h
  obtain ⟨RA, _, h⟩ := h
  simp only [Except.ok.injEq] at h
  rw [← h, hf]
  simp only [List.length_map]
  rw [selectPairs_ok_length data.degrees curr_links degrees hdeg,
    selectIdx_ok_length data.links indices curr_links hcl]

/-- When the predictor yields one logit per structure feature row and the
subgraph features have one row per link, each gnn batch yields one logit
per index. -/
theorem gnn_batch_length {H C : Type} (model : GnnModel H C) (args : Args)
    (data : BulkDataset) (emb : Option (List Tensor))
    (node_features : Option (List Tensor)) (hashes : H) (cards : C)
    (hp : ∀ sf nfb be, (model.predictor sf nfb be).length = sf.length)
    (he : ∀ cl hh cc,
      (model.elph_hashes_get_subgraph_features cl hh cc).length
        = cl.length)
    (indices : List ℕ) (lg : Tensor)
    (h : gnn_batch model args data emb node_features hashes cards indices
      = .ok lg) :
    lg.length = indices.length := by
  unfold gnn_batch at h
  rw [bind_ok_iff] at h
  obtain ⟨curr_links, hcl, h⟩ := h
  rw [bind_ok_iff] at h
  obtain ⟨batch_emb, _, h⟩ := h
  rw [bind_ok_iff] at h
  obtain ⟨sf, hsf, h⟩ := h
  rw [bind_ok_iff] at h
  obtain ⟨bnf, _, h⟩ := h
  simp only [Except.ok.injEq] at h
  have hcll : curr_links.length = indices.length :=
    selectIdx_ok_length data.links indices curr_links hcl
  have hsfl : sf.length = indices.length := by
    unfold gnnStructFeatures at hsf
    by_cases hu : args.use_struct_feature
    · rw [if_pos hu] at hsf
      simp only [Except.ok.injEq] at hsf
      rw [← hsf, he, hcll]
    · rw [if_neg hu] at hsf
      rw [bind_ok_iff] at hsf
      obtain ⟨sf0, hsf0, hsf⟩ := hsf
      rw [pure_eq_ok] at hsf
      simp only [Except.ok.injEq] at hsf
      rw [← hsf]
      simp only [List.length_map]
      exact selectIdx_ok_length data.structure_features indices sf0 hsf0
  rw [← h, hp, hsfl]

/-- C4: test hands the collected predictions to evaluate_hits with
Ks = [args.K] when eval_metric is hits, to evaluate_mrr on the same six
prediction tensors when it is mrr, and to evaluate_auc on the val and
test predictions and labels when it is auc. -/
theorem claim_C4_metric_dispatch {H C E R : Type} (M : ModelBundle H C)
    (evaluator : E) (train_loader val_loader test_loader : Loader)
    (args : Args) (device : Device)
    (evaluate_hits : E → Tensor → Tensor → Tensor → Tensor → Tensor →
      Tensor → List ℕ → R)
    (evaluate_mrr : E → Tensor → Tensor → Tensor → Tensor → Tensor →
      Tensor → R)
    (evaluate_auc : Tensor → Tensor → Tensor → Tensor → R)
    (emb : EmbArg) (ftr fva fte : TestFunc) (tr va te : PredResult)
    (h1 : get_test_func args "train" = .ok ftr)
    (h2 : callTestFunc ftr M train_loader device args
      (some (trainEvalSamples args val_loader)) "train" = .ok tr)
    (h3 : get_test_func args "val" = .ok fva)
    (h4 : callTestFunc fva M val_loader device args Option.none "val"
      = .ok va)
    (h5 : get_test_func args "test" = .ok fte)
    (h6 : callTestFunc fte M test_loader device args
      (some (.fin args.test_samples)) "test" = .ok te) :
    test M evaluator train_loader val_loader test_loader args device
        evaluate_hits evaluate_mrr evaluate_auc emb "hits"
      = .ok (evaluate_hits evaluator tr.pos_pred tr.neg_pred va.pos_pred
          va.neg_pred te.pos_pred te.neg_pred [args.K]) ∧
    test M evaluator train_loader val_loader test_loader args device
        evaluate_hits evaluate_mrr evaluate_auc emb "mrr"
      = .ok (evaluate_mrr evaluator tr.pos_pred tr.neg_pred va.pos_pred
          va.neg_pred te.pos_pred te.neg_pred) ∧
    test M evaluator train_loader val_loader test_loader args device
        evaluate_hits evaluate_mrr evaluate_auc emb "auc"
      = .ok (evaluate_auc va.pred va.truth te.pred te.truth) := by
  refine ⟨?_, ?_, ?_⟩ <;>
    simp only [test, h1, ok_bind, h2, ok_bind, h3, ok_bind, h4, ok_bind,
      h5, ok_bind, h6, ok_bind] <;> rfl

/-- Witness for C4: a concrete ELPH run where the hits metric receives
the collected predictions. -/
theorem claim_C4_metric_dispatch_witness :
    test bundle0 () loaderP loaderP loaderP argsELPH ()
        (fun _ _ _ _ _ _ _ _ => (7 : ℕ)) (fun _ _ _ _ _ _ _ => 8)
        (fun _ _ _ _ => 9) .none "hits" = .ok 7 :=
  (claim_C4_metric_dispatch bundle0 () loaderP loaderP loaderP argsELPH ()
    (fun _ _ _ _ _ _ _ _ => 7) (fun _ _ _ _ _ _ _ => 8)
    (fun _ _ _ _ => 9) .none TestFunc.get_gnn_preds TestFunc.get_gnn_preds
    TestFunc.get_gnn_preds ⟨[1], [], [1], [1]⟩ ⟨[1], [], [1], [1]⟩
    ⟨[1], [], [1], [1]⟩ rfl (by rfl) rfl (by rfl) rfl (by rfl)).1

/-- C5: whenever get_preds returns, pred is the batch-order
concatenation of the per-batch flattened logits and truth the
concatenation of the per-batch labels, with pos_pred and neg_pred the
subsequences of pred at the positions where truth is 1 and 0; and
get_bulk_preds and get_gnn_preds build their pred by the same
batch-order concatenation. -/
theorem claim_C5_batch_concat :
    (∀ (modelFn : ModelInput → Tensor) (hashFn : List Tensor → Tensor)
      (loader : Loader) (device : Device) (args : Args) (emb : EmbArg)
      (sample_size : PyFloat) (split : String) (r : PredResult),
      get_preds modelFn hashFn loader device args emb sample_size split
        = .ok r →
      ∃ k pairs, k ≤ loader.batches.length ∧
        (loader.batches.take k).mapM (processBatch modelFn hashFn args emb)
          = .ok pairs ∧
        r.pred = (pairs.map Prod.fst).flatten ∧
        r.truth = (pairs.map Prod.snd).flatten ∧
        r.pos_pred = maskKeep r.pred r.truth 1 ∧
        r.neg_pred = maskKeep r.pred r.truth 0) ∧
    (∀ (model : BulkModel) (loader : Loader) (device : Device)
      (args : Args) (sample_size : PyFloat) (split : String)
      (r : PredResult),
      get_bulk_preds model loader device args sample_size split = .ok r →
      ∃ k ps,
        k ≤ (indexBatches loader.dataset.links.length
          args.eval_batch_size).length ∧
        ((indexBatches loader.dataset.links.length
            args.eval_batch_size).take k).mapM
          (bulk_batch model args loader.dataset
            (embTable model.node_embedding model.propagate_embeddings_func
              args loader.dataset)) = .ok ps ∧
        r.pred = ps.flatten) ∧
    (∀ (H C : Type) (model : GnnModel H C) (loader : Loader)
      (device : Device) (args : Args) (sample_size : PyFloat)
      (split : String) (r : PredResult),
      get_gnn_preds model loader device args sample_size split = .ok r →
      ∃ ps,
        (indexBatches loader.dataset.links.length
          args.eval_batch_size).mapM
          (gnn_batch model args loader.dataset
            (embTable model.node_embedding model.propagate_embeddings_func
              args loader.dataset)
            (model.forward loader.dataset.x loader.dataset.edge_index).1
            (model.forward loader.dataset.x loader.dataset.edge_index).2.1
            (model.forward loader.dataset.x
              loader.dataset.edge_index).2.2.1)
          = .ok ps ∧
        r.pred = ps.flatten) := by
  refine ⟨?_, ?_, ?_⟩
  · intro modelFn hashFn loader device args emb ss split r h
    obtain ⟨sa, yp, hsa, hyp, hw, hne1, hpred, hne2, htruth, hlen, hpos,
      hneg⟩ := get_preds_ok_parts modelFn hashFn loader device args emb
        ss split r h
    obtain ⟨k, pairs, hk, hmap, hp1, hp2⟩ :=
      get_preds_loop_ok_parts (processBatch modelFn hashFn args emb)
        args.batch_size (samplesCap sa loader.datasetLen) loader.batches 0
        yp.1 yp.2 (by simpa using hyp)
    exact ⟨k, pairs, hk, hmap, by rw [hpred, hp1], by rw [htruth, hp2],
      hpos, hneg⟩
  · intro model loader device args ss split r h
    obtain ⟨hz, ps, hloop, hfin⟩ :=
      get_bulk_preds_ok_parts model loader device args ss split r h
    obtain ⟨k, hk, hmap⟩ := bulk_loop_ok_parts model args loader.dataset
      (embTable model.node_embedding model.propagate_embeddings_func args
        loader.dataset) ss
      (indexBatches loader.dataset.links.length args.eval_batch_size)
      0 ps hloop
    obtain ⟨hne, hpred, _⟩ := finishPreds_ok hfin
    exact ⟨k, ps, hk, hmap, hpred⟩
  · intro H C model loader device args ss split r h
    obtain ⟨hz, ps, hloop, hfin⟩ :=
      get_gnn_preds_ok_parts model loader device args ss split r h
    rw [gnn_loop_eq_mapM] at hloop
    obtain ⟨hne, hpred, _⟩ := finishPreds_ok hfin
    exact ⟨ps, hloop, hpred⟩

/-- Witness for C5: the concatenation facts at a concrete one-batch
get_preds run. -/
theorem claim_C5_batch_concat_witness :
    ∃ k pairs, k ≤ loaderP.batches.length ∧
      (loaderP.batches.take k).mapM
        (processBatch modelFn0 hashFn0 argsGCN EmbArg.none) = .ok pairs ∧
      (⟨[5], [], [5], [1]⟩ : PredResult).pred
        = (pairs.map Prod.fst).flatten ∧
      (⟨[5], [], [5], [1]⟩ : PredResult).truth
        = (pairs.map Prod.snd).flatten ∧
      (⟨[5], [], [5], [1]⟩ : PredResult).pos_pred
        = maskKeep (⟨[5], [], [5], [1]⟩ : PredResult).pred
            (⟨[5], [], [5], [1]⟩ : PredResult).truth 1 ∧
      (⟨[5], [], [5], [1]⟩ : PredResult).neg_pred
        = maskKeep (⟨[5], [], [5], [1]⟩ : PredResult).pred
            (⟨[5], [], [5], [1]⟩ : PredResult).truth 0 :=
  claim_C5_batch_concat.1 modelFn0 hashFn0 loaderP () argsGCN .none .inf
    "train" ⟨[5], [], [5], [1]⟩ (by rfl)

/-- C6: with the dynamic flag set, get_sample_arg returns the per-split
sample count; the cap is that count when it exceeds 1 and the dataset
length times it otherwise; the loop stops after the first batch whose
count satisfies (batch_count + 1) * batch_size > samples, so at most
floor(samples / batch_size) + 1 batches run; with the flag unset the cap
is infinite and every batch is processed. -/
theorem claim_C6_dynamic_sampling :
    (∀ args : Args,
      (args.dynamic_train = true →
        get_sample_arg "train" args = .ok (.fin args.train_samples)) ∧
      (args.dynamic_val = true →
        get_sample_arg "val" args = .ok (.fin args.val_samples) ∧
        get_sample_arg "valid" args = .ok (.fin args.val_samples)) ∧
      (args.dynamic_test = true →
        get_sample_arg "test" args = .ok (.fin args.test_samples)) ∧
      (args.dynamic_train = false →
        get_sample_arg "train" args = .ok .inf) ∧
      (args.dynamic_val = false →
        get_sample_arg "val" args = .ok .inf ∧
        get_sample_arg "valid" args = .ok .inf) ∧
      (args.dynamic_test = false →
        get_sample_arg "test" args = .ok .inf)) ∧
    (∀ (q : ℚ) (n : ℕ),
      samplesCap (.fin q) n
        = if 1 < q then .fin q else .fin ((n : ℚ) * q)) ∧
    (∀ n : ℕ, samplesCap .inf n = .inf) ∧
    (∀ (pb : BatchData → Except String (Tensor × Tensor)) (B : ℕ) (q : ℚ)
      (bs : List BatchData) (ps ts : List Tensor), 0 < B →
      get_preds_loop pb B (.fin q) 0 bs = .ok (ps, ts) →
      ps.length ≤ ⌊q / (B : ℚ)⌋₊ + 1) ∧
    (∀ (pb : BatchData → Except String (Tensor × Tensor)) (B : ℕ)
      (bs : List BatchData) (ps ts : List Tensor),
      get_preds_loop pb B .inf 0 bs = .ok (ps, ts) →
      ps.length = bs.length) := by
  refine ⟨?_, ?_, ?_, ?_, ?_⟩
  · intro args
    refine ⟨?_, ?_, ?_, ?_, ?_, ?_⟩ <;> intro hd <;>
      simp [get_sample_arg, hd]
  · intro q n
    unfold samplesCap
    by_cases h1 : q ≤ 1
    · rw [if_pos (by simp [PyFloat.le, h1]), if_neg (not_lt.mpr h1)]
    · rw [if_neg (by simp [PyFloat.le, h1]),
        if_pos (lt_of_not_ge fun hc => h1 hc)]
  · intro n; rfl
  · intro pb B q bs ps ts hB h
    exact get_preds_loop_count_le pb q bs ps ts hB h
  · intro pb B bs ps ts h
    exact (get_preds_loop_inf_all pb B bs 0 ps ts h).1

/-- Witness for C6: a concrete finite-cap loop run that stops after two
of three batches, within the floor bound. -/
theorem claim_C6_dynamic_sampling_witness :
    ([[5], [5]] : List Tensor).length ≤ ⌊(1 : ℚ) / ((1 : ℕ) : ℚ)⌋₊ + 1 :=
  claim_C6_dynamic_sampling.2.2.2.1
    (processBatch modelFn0 hashFn0 argsGCN .none) 1 1
    [BatchData.pyg pyg0, .pyg pyg0, .pyg pyg0] [[5], [5]] [[1], [1]]
    (by decide) (by rfl)

/-- C8: the fifth positional argument of the prediction calls made by
test binds to the emb parameter of get_preds, whose sample_size keeps
its default math.inf; the truthiness of that numeric emb decides whether
node_id is taken from the batch. -/
theorem claim_C8_emb_binding :
    (∀ (H C : Type) (M : ModelBundle H C) (loader : Loader)
      (device : Device) (args : Args) (v : PyFloat) (split : String),
      callTestFunc TestFunc.get_preds M loader device args (some v) split
        = get_preds M.pygForward M.hashForward loader device args
            (EmbArg.num v) .inf split) ∧
    (∀ (args : Args) (emb : EmbArg) (d : PygData),
      (mkModelInput args emb d).node_id
        = if emb.truthy then some d.node_id else Option.none) ∧
    (∀ q : ℚ, (EmbArg.num (.fin q)).truthy = true ↔ q ≠ 0) ∧
    (EmbArg.num .inf).truthy = true := by
  refine ⟨?_, ?_, ?_, rfl⟩
  · intro H C M loader device args v split; rfl
  · intro args emb d; rfl
  · intro q; simp [EmbArg.truthy]

/-- C9: with wandb set, get_preds runs the whole batch loop and then
raises NameError because numpy was never imported; get_preds only
returns a value when wandb is unset. -/
theorem claim_C9_wandb_nameerror :
    (∀ (modelFn : ModelInput → Tensor) (hashFn : List Tensor → Tensor)
      (loader : Loader) (device : Device) (args : Args) (emb : EmbArg)
      (sample_size : PyFloat) (split : String) (sa : PyFloat)
      (yp : List Tensor × List Tensor),
      args.wandb = true →
      get_sample_arg split args = .ok sa →
      get_preds_loop (processBatch modelFn hashFn args emb)
        args.batch_size (samplesCap sa loader.datasetLen) 0 loader.batches
        = .ok yp →
      get_preds modelFn hashFn loader device args emb sample_size split
        = .error "NameError: name np is not defined") ∧
    (∀ (modelFn : ModelInput → Tensor) (hashFn : List Tensor → Tensor)
      (loader : Loader) (device : Device) (args : Args) (emb : EmbArg)
      (sample_size : PyFloat) (split : String) (r : PredResult),
      get_preds modelFn hashFn loader device args emb sample_size split
        = .ok r → args.wandb = false) := by
  constructor
  · intro modelFn hashFn loader device args emb ss split sa yp hw hsa hloop
    unfold get_preds
    rw [hsa, ok_bind]
    simp only [hloop, ok_bind, hw, if_true]
  · intro modelFn hashFn loader device args emb ss split r h
    obtain ⟨sa, yp, hsa, hyp, hw, hrest⟩ :=
      get_preds_ok_parts modelFn hashFn loader device args emb ss split r h
    exact hw

/-- Witness for C9: a concrete wandb run of get_preds ending in the
NameError. -/
theorem claim_C9_wandb_nameerror_witness :
    get_preds modelFn0 hashFn0 loaderE () argsGCNW EmbArg.none .inf
      "train" = .error "NameError: name np is not defined" :=
  claim_C9_wandb_nameerror.1 modelFn0 hashFn0 loaderE () argsGCNW .none
    .inf "train" (.fin 2) ([], []) rfl rfl rfl

/-- C10: whenever get_bulk_preds or get_gnn_preds returns, pred and the
returned labels have equal length, the labels being the dataset labels
truncated to the length of pred; under one logit per link, pred never
exceeds the number of dataset links; and with zero-one labels, pos_pred
and neg_pred partition pred. -/
theorem claim_C10_length_invariants :
    (∀ (model : BulkModel) (loader : Loader) (device : Device)
      (args : Args) (sample_size : PyFloat) (split : String)
      (r : PredResult),
      get_bulk_preds model loader device args sample_size split = .ok r →
      r.pred.length = r.truth.length ∧
      r.truth = loader.dataset.labels.take r.pred.length ∧
      ((∀ inp, (model.forward inp).length = inp.src_degree.length) →
        r.pred.length ≤ loader.dataset.links.length) ∧
      ((∀ l ∈ loader.dataset.labels, l = 0 ∨ l = 1) →
        r.pos_pred.length + r.neg_pred.length = r.pred.length)) ∧
    (∀ (H C : Type) (model : GnnModel H C) (loader : Loader)
      (device : Device) (args : Args) (sample_size : PyFloat)
      (split : String) (r : PredResult),
      get_gnn_preds model loader device args sample_size split = .ok r →
      r.pred.length = r.truth.length ∧
      r.truth = loader.dataset.labels.take r.pred.length ∧
      ((∀ sf nfb be, (model.predictor sf nfb be).length = sf.length) →
       (∀ cl hh cc,
          (model.elph_hashes_get_subgraph_features cl hh cc).length
            = cl.length) →
        r.pred.length ≤ loader.dataset.links.length) ∧
      ((∀ l ∈ loader.dataset.labels, l = 0 ∨ l = 1) →
        r.pos_pred.length + r.neg_pred.length = r.pred.length)) := by
  constructor
  · intro model loader device args ss split r h
    obtain ⟨hz, ps, hloop, hfin⟩ :=
      get_bulk_preds_ok_parts model loader device args ss split r h
    obtain ⟨hne, hpred, htruth, hlen, hpos, hneg⟩ := finishPreds_ok hfin
    refine ⟨hlen, htruth, ?_, ?_⟩
    · intro hf
      obtain ⟨k, hk, hmap⟩ := bulk_loop_ok_parts model args loader.dataset
        (embTable model.node_embedding model.propagate_embeddings_func
          args loader.dataset) ss
        (indexBatches loader.dataset.links.length args.eval_batch_size)
        0 ps hloop
      have hml := mapM_ok_map_length
        (bulk_batch model args loader.dataset
          (embTable model.node_embedding model.propagate_embeddings_func
            args loader.dataset))
        List.length
        (fun idxs lg hlg => bulk_batch_length model args loader.dataset
          (embTable model.node_embedding model.propagate_embeddings_func
            args loader.dataset) hf idxs lg hlg)
        ((indexBatches loader.dataset.links.length
          args.eval_batch_size).take k) ps hmap
      rw [hpred, flatten_length_of_map_length hml]
      calc (((indexBatches loader.dataset.links.length
              args.eval_batch_size).take k).flatten).length
          ≤ ((indexBatches loader.dataset.links.length
              args.eval_batch_size).flatten).length :=
            flatten_take_le _ _
        _ = loader.dataset.links.length := by
            rw [indexBatches, chunkList_flatten, List.length_range]
    · intro hlab
      rw [hpos, hneg]
      refine maskKeep_partition r.pred r.truth hlen fun x hx => ?_
      rw [htruth] at hx
      exact hlab x (List.take_subset _ _ hx)
  · intro H C model loader device args ss split r h
    obtain ⟨hz, ps, hloop, hfin⟩ :=
      get_gnn_preds_ok_parts model loader device args ss split r h
    rw [gnn_loop_eq_mapM] at hloop
    obtain ⟨hne, hpred, htruth, hlen, hpos, hneg⟩ := finishPreds_ok hfin
    refine ⟨hlen, htruth, ?_, ?_⟩
    · intro hp he
      have hml := mapM_ok_map_length
        (gnn_batch model args loader.dataset
          (embTable model.node_embedding model.propagate_embeddings_func
            args loader.dataset)
          (model.forward loader.dataset.x loader.dataset.edge_index).1
          (model.forward loader.dataset.x loader.dataset.edge_index).2.1
          (model.forward loader.dataset.x loader.dataset.edge_index).2.2.1)
        List.length
        (fun idxs lg hlg => gnn_batch_length model args loader.dataset
          (embTable model.node_embedding model.propagate_embeddings_func
            args loader.dataset)
          (model.forward loader.dataset.x loader.dataset.edge_index).1
          (model.forward loader.dataset.x loader.dataset.edge_index).2.1
          (model.forward loader.dataset.x loader.dataset.edge_index).2.2.1
          hp he idxs lg hlg)
        (indexBatches loader.dataset.links.length args.eval_batch_size)
        ps hloop
      rw [hpred, flatten_length_of_map_length hml]
      rw [indexBatches, chunkList_flatten, List.length_range]
    · intro hlab
      rw [hpos, hneg]
      refine maskKeep_partition r.pred r.truth hlen fun x hx => ?_
      rw [htruth] at hx
      exact hlab x (List.take_subset _ _ hx)

/-- Witness for C10: a concrete one-link bulk run where pred stays within
the link count and the positives and negatives partition it. -/
theorem claim_C10_length_invariants_witness :
    (⟨[0], [], [0], [1]⟩ : PredResult).pred.length
        ≤ loaderP.dataset.links.length ∧
    (⟨[0], [], [0], [1]⟩ : PredResult).pos_pred.length
        + (⟨[0], [], [0], [1]⟩ : PredResult).neg_pred.length
        = (⟨[0], [], [0], [1]⟩ : PredResult).pred.length :=
  ⟨(claim_C10_length_invariants.1 bulkModel0 loaderP () argsGCN .inf ""
      ⟨[0], [], [0], [1]⟩ (by rfl)).2.2.1 (fun inp => by
        simp [bulkModel0]),
   (claim_C10_length_invariants.1 bulkModel0 loaderP () argsGCN .inf ""
      ⟨[0], [], [0], [1]⟩ (by rfl)).2.2.2 (by decide)⟩
